import Mathlib

/-!
Verification of the `check-commit` subject classifier
(`check-commit/check.go`) against its natural-language specification.

The Go code is shallowly embedded: Go strings / byte slices become
`List Char` (one element per code point; for the ASCII-relevant checks a
code point above 127 corresponds exactly to the presence of a byte above
127 in the UTF-8 encoding), Go maps become association lists with the
Go zero-value returned for a missing key, and Go sentinel errors wrapped
with `%w` become constructors of an error inductive, with `errKind`
giving the wrapped sentinel (`ErrTagScope` vs `ErrSubjectMessageFormat`).
-/

/-- Code points of a string literal, the model of a Go string. -/
def str (s : String) : List Char := s.data

/-- Model of Go `unicode.IsSpace` (the Unicode White_Space property):
tab, LF, VT, FF, CR, space, NEL, NBSP and the higher Unicode spaces. -/
def isGoSpace (c : Char) : Bool :=
  let n := c.toNat
  n = 9 || n = 10 || n = 11 || n = 12 || n = 13 || n = 32 ||
  n = 133 || n = 160 || n = 5760 || (8192 ≤ n && n ≤ 8202) ||
  n = 8232 || n = 8233 || n = 8239 || n = 8287 || n = 12288

/-- Model of Go `strings.Fields`: maximal runs of non-whitespace
characters, in order, with all whitespace removed. -/
def fields (s : List Char) : List (List Char) :=
  (s.splitOnP isGoSpace).filter (fun w => !w.isEmpty)

/-- Model of Go `strings.Join(parts, " ")`. -/
def joinSpace (ws : List (List Char)) : List Char :=
  List.intercalate [Char.ofNat 32] ws

/-- The two sentinel errors a failing check wraps with `%w`:
`ErrTagScope` ("invalid tag and or severity") and
`ErrSubjectMessageFormat` ("invalid subject message format"). -/
inductive ErrKind
  | tagScope
  | subjectFormat
deriving DecidableEq

/-- The distinct failure sites of `CheckSubject`/`checkSubjectText`,
one constructor per `fmt.Errorf` call in the Go source. -/
inductive CheckError
  | nonAscii
  | invalidTag (searched : List (List Char))
  | unprocessedTags
  | malformedWhitespace
  | wordCountOutOfBounds
  | lengthOutOfBounds
deriving DecidableEq

/-- Which sentinel error each failure site wraps in the Go source. -/
def errKind : CheckError → ErrKind
  | .nonAscii => .tagScope
  | .invalidTag _ => .tagScope
  | .unprocessedTags => .tagScope
  | .malformedWhitespace => .subjectFormat
  | .wordCountOutOfBounds => .subjectFormat
  | .lengthOutOfBounds => .subjectFormat

/-- Go struct `patchTypeT`: allowed tag values and an optional scope name. -/
structure patchTypeT where
  values : List (List Char)
  scope : List Char
deriving DecidableEq

/-- Go struct `tagAlternativesT`: one tag position of the policy. -/
structure tagAlternativesT where
  patchTypes : List (List Char)
  optional : Bool
deriving DecidableEq

/-- Go struct `CommitPolicyConfig`. Go maps are modelled as association
lists (keys unique); lookup of a missing key yields the Go zero value. -/
structure CommitPolicyConfig where
  patchScopes : List (List Char × List (List Char))
  patchTypes : List (List Char × patchTypeT)
  tagOrder : List tagAlternativesT
  helpText : List Char
deriving DecidableEq

/-- Association-list lookup with a default (Go map indexing semantics). -/
def lookupD {α : Type} (m : List (List Char × α)) (k : List Char) (d : α) : α :=
  match m.find? (fun kv => kv.1 == k) with
  | some kv => kv.2
  | none => d

/-- `c.PatchTypes[name]` with the Go zero value for a missing key. -/
def lookupType (c : CommitPolicyConfig) (name : List Char) : patchTypeT :=
  lookupD c.patchTypes name ⟨[], []⟩

/-- `c.PatchScopes[scopeName]` with the Go zero value for a missing key. -/
def lookupScope (c : CommitPolicyConfig) (scopeName : List Char) : List (List Char) :=
  lookupD c.patchScopes scopeName []

/-- The `for _, allowedTag := range ... .Values` loop body of
`CheckPatchTypes`, with the accumulator `tagScopeOK` threaded
explicitly.  A `break` becomes returning the current accumulator (or
`true` where the Go code sets the flag just before breaking); the inner
severity loop sets the flag and breaks only the inner loop, so it
becomes an `||` with a scan of the scope list. -/
def patchTypeLoop (c : CommitPolicyConfig) (pt : patchTypeT) (tag severity : List Char) :
    List (List Char) → Bool → Bool
  | [], tagScopeOK => tagScopeOK
  | allowedTag :: rest, tagScopeOK =>
    if tag = allowedTag then
      if severity = [] then true
      else if pt.scope = [] then tagScopeOK
      else
        patchTypeLoop c pt tag severity rest
          (tagScopeOK || (lookupScope c pt.scope).any (fun allowedScope => severity == allowedScope))
    else patchTypeLoop c pt tag severity rest tagScopeOK

/-- Go `(c CommitPolicyConfig) CheckPatchTypes(tag, severity, patchTypeName)`. -/
def CheckPatchTypes (c : CommitPolicyConfig) (tag severity name : List Char) : Bool :=
  patchTypeLoop c (lookupType c name) tag severity (lookupType c name).values false

/-- `[A-Z]` of the Go regular expression. -/
def isUpperAZ (c : Char) : Bool := 65 ≤ c.toNat && c.toNat ≤ 90

/-- The anchored Go regular expression
`^(?P<match>(?P<tag>[A-Z]+)(\/(?P<severity>[A-Z]+))?: )` as a
deterministic function.  Returns `(matched, tag, severity, rest)` where
`severity = []` when the optional group is absent (Go `Expand` yields
`""` there) and `rest` is the input after the match.

Determinism is justified as follows: `[A-Z]+` is greedy, and shortening
either capture during backtracking leaves an uppercase letter as the
next input character, which can never match the following `/`, `:` or
space, so only the maximal uppercase runs can participate in a match.
Hence the regex matches iff: a nonempty maximal uppercase run, then
either `": "`, or `/`, a nonempty maximal uppercase run and `": "`. -/
def tagMatch (s : List Char) : Option (List Char × List Char × List Char × List Char) :=
  let tag := s.takeWhile isUpperAZ
  let rest1 := s.dropWhile isUpperAZ
  if tag.isEmpty then none
  else
    match rest1 with
    | [] => none
    | c1 :: rest2 =>
      if c1.toNat = 58 then
        match rest2 with
        | [] => none
        | c2 :: rest3 =>
          if c2.toNat = 32 then some (tag ++ [c1, c2], tag, [], rest3) else none
      else if c1.toNat = 47 then
        let sev := rest2.takeWhile isUpperAZ
        let rest3 := rest2.dropWhile isUpperAZ
        if sev.isEmpty then none
        else
          match rest3 with
          | [] => none
          | [_] => none
          | d1 :: d2 :: rest4 =>
            if d1.toNat = 58 && d2.toNat = 32 then
              some (tag ++ c1 :: (sev ++ [d1, d2]), tag, sev, rest4)
            else none
      else none

/-- The `for _, tagAlternative := range c.TagOrder` loop of
`CheckSubject`: on no regex match the Go code executes `continue`; on a
match it consumes the prefix iff some listed patch type accepts the
extracted pair, and fails iff the position is non-optional and no patch
type accepted. -/
def tagLoop (c : CommitPolicyConfig) : List tagAlternativesT → List Char → Except CheckError (List Char)
  | [], rawSubject => .ok rawSubject
  | ta :: rest, rawSubject =>
    match tagMatch rawSubject with
    | none => tagLoop c rest rawSubject
    | some (_, tag, severity, remainder) =>
      let consumed := ta.patchTypes.any (fun p => CheckPatchTypes c tag severity p)
      if ta.optional || consumed then tagLoop c rest (if consumed then remainder else rawSubject)
      else .error (.invalidTag ta.patchTypes)

/-- Go constant `MINSUBJECTPARTS`. -/
def MINSUBJECTPARTS : Nat := 3
/-- Go constant `MAXSUBJECTPARTS`. -/
def MAXSUBJECTPARTS : Nat := 15
/-- Go constant `MINSUBJECTLEN`. -/
def MINSUBJECTLEN : Nat := 15
/-- Go constant `MAXSUBJECTLEN`. -/
def MAXSUBJECTLEN : Nat := 100

/-- Go `checkSubjectText`.  `utf8.RuneCountInString` is the length of
the code-point list; `strings.Fields`/`strings.Join` are `fields` and
`joinSpace`. -/
def checkSubjectText (subject : List Char) : Option CheckError :=
  let subjectLen := subject.length
  let subjectParts := fields subject
  let subjectPartsLen := subjectParts.length
  if subject ≠ joinSpace subjectParts then some .malformedWhitespace
  else if subjectPartsLen < MINSUBJECTPARTS ∨ MAXSUBJECTPARTS < subjectPartsLen then
    some .wordCountOutOfBounds
  else if subjectLen < MINSUBJECTLEN ∨ MAXSUBJECTLEN < subjectLen then
    some .lengthOutOfBounds
  else none

/-- Go `(c CommitPolicyConfig) CheckSubject(rawSubject)`: the ASCII scan
(`rawSubject[i] > unicode.MaxASCII`), the tag-position loop, the final
re-run of the prefix regex ("detected unprocessed tags") and the text
validation, in source order. -/
def CheckSubject (c : CommitPolicyConfig) (rawSubject : List Char) : Option CheckError :=
  if rawSubject.any (fun ch => 127 < ch.toNat) then some .nonAscii
  else
    match tagLoop c c.tagOrder rawSubject with
    | .error e => some e
    | .ok remainder =>
      if (tagMatch remainder).isSome then some .unprocessedTags
      else checkSubjectText remainder

/-- The single sentinel error `ErrSubjectList` ("subjects contain errors"). -/
inductive ListError
  | subjectsContainErrors
deriving DecidableEq

/-- Go `strings.Trim(subject, "'")`: remove every leading and trailing
single-quote character (code point 39). -/
def trimQuote (s : List Char) : List Char :=
  ((s.dropWhile (fun ch => ch.toNat = 39)).reverse.dropWhile (fun ch => ch.toNat = 39)).reverse

/-- The loop of `CheckSubjectList`, threading the `errors` flag and the
list of failing (trimmed) subjects logged by `log.Printf`. -/
def subjectListLoop (c : CommitPolicyConfig) :
    List (List Char) → Bool → List (List Char) → Bool × List (List Char)
  | [], errorsFlag, logAcc => (errorsFlag, logAcc)
  | s :: rest, errorsFlag, logAcc =>
    let s' := trimQuote s
    match CheckSubject c s' with
    | some _ => subjectListLoop c rest true (logAcc ++ [s'])
    | none => subjectListLoop c rest errorsFlag logAcc

/-- Go `(c CommitPolicyConfig) CheckSubjectList(subjects)`. -/
def CheckSubjectList (c : CommitPolicyConfig) (subjects : List (List Char)) : Option ListError :=
  if (subjectListLoop c subjects false []).1 then some .subjectsContainErrors else none

/-- The subjects reported by `log.Printf` during `CheckSubjectList`. -/
def subjectListLog (c : CommitPolicyConfig) (subjects : List (List Char)) : List (List Char) :=
  (subjectListLoop c subjects false []).2

/-- `tagLoop` with the ambient log state (the stream written by
`log.Printf`) threaded explicitly: the only write in the loop is the
diagnostic emitted just before the `invalidTag` failure. -/
def tagLoopLog (c : CommitPolicyConfig) :
    List tagAlternativesT → List Char → List (List Char) →
      Except CheckError (List Char) × List (List Char)
  | [], rawSubject, lg => (.ok rawSubject, lg)
  | ta :: rest, rawSubject, lg =>
    match tagMatch rawSubject with
    | none => tagLoopLog c rest rawSubject lg
    | some (matched, tag, severity, remainder) =>
      let consumed := ta.patchTypes.any (fun p => CheckPatchTypes c tag severity p)
      if ta.optional || consumed then
        tagLoopLog c rest (if consumed then remainder else rawSubject) lg
      else (.error (.invalidTag ta.patchTypes), lg ++ [matched])

/-- `CheckSubject` with the ambient log state threaded explicitly
(writes: the hex dump on non-ASCII input and the failed-candidates
message of the tag loop). -/
def CheckSubjectWithLog (c : CommitPolicyConfig) (rawSubject : List Char)
    (lg : List (List Char)) : Option CheckError × List (List Char) :=
  if rawSubject.any (fun ch => 127 < ch.toNat) then (some .nonAscii, lg ++ [rawSubject])
  else
    match tagLoopLog c c.tagOrder rawSubject lg with
    | (.error e, lg') => (some e, lg')
    | (.ok remainder, lg') =>
      if (tagMatch remainder).isSome then (some .unprocessedTags, lg')
      else (checkSubjectText remainder, lg')

/-- The built-in fallback policy `defaultConf` of the Go source,
after YAML unmarshalling. -/
def defaultPolicy : CommitPolicyConfig where
  patchScopes :=
    [(str "HAProxy Standard Scope", [str "MINOR", str "MEDIUM", str "MAJOR", str "CRITICAL"])]
  patchTypes :=
    [(str "HAProxy Standard Patch",
      ⟨[str "BUG", str "BUILD", str "CLEANUP", str "DOC", str "LICENSE", str "OPTIM",
        str "RELEASE", str "REORG", str "TEST", str "REVERT"],
       str "HAProxy Standard Scope"⟩),
     (str "HAProxy Standard Feature Commit",
      ⟨[str "MINOR", str "MEDIUM", str "MAJOR", str "CRITICAL"], []⟩)]
  tagOrder := [⟨[str "HAProxy Standard Patch", str "HAProxy Standard Feature Commit"], false⟩]
  helpText := str "Please refer to https://github.com/haproxy/haproxy/blob/master/CONTRIBUTING#L632"

/-- The zero-valued policy (empty `TagOrder`). -/
def emptyPolicy : CommitPolicyConfig where
  patchScopes := []
  patchTypes := []
  tagOrder := []
  helpText := []

/-- C1: the spec says a non-optional tag position that is not satisfied
always fails with a TagScopeError, including when no tag-shaped prefix
matches the remainder at all.  The code instead skips a position whose
regex match fails (`continue`), so this subject from the repository's
own test table (expected to fail, `wantErr: true`) passes: no prefix
matches, the single mandatory position is skipped without error, and
text validation succeeds. -/
theorem c1_unmatched_mandatory_position_not_fatal :
    tagMatch (str "aaaBUG/MEDIUM: config: add default location of path to the configuration file") =
      none ∧
    defaultPolicy.tagOrder =
      [⟨[str "HAProxy Standard Patch", str "HAProxy Standard Feature Commit"], false⟩] ∧
    CheckSubject defaultPolicy
      (str "aaaBUG/MEDIUM: config: add default location of path to the configuration file") =
      none := by
  decide

/-- C3: the spec (and the repository's test "missing severity",
`wantErr: true`) say `"BUG/: config: default implementation"` fails
with a TagScopeError.  In the code the prefix `BUG/: ` does not match
the tag grammar at all (the severity group requires `[A-Z]+` after the
slash), the mandatory position is skipped via `continue`, the final
unprocessed-tag re-check also finds no match, and the text rules pass,
so `CheckSubject` returns success. -/
theorem c3_empty_severity_subject_passes :
    tagMatch (str "BUG/: config: default implementation") = none ∧
    CheckSubject defaultPolicy (str "BUG/: config: default implementation") = none := by
  decide

/-- C2 counterexample: under the zero policy (empty `tagOrder`) the
subject `"FOO: this is a valid commit subject"` is ASCII, satisfies the
word-count/length/whitespace rules, yet `CheckSubject` rejects it: the
final unprocessed-tag re-check runs even with zero tag positions and
matches the `FOO: ` prefix, so a failure branch of the matcher is
reachable before text validation, contrary to the claim. -/
theorem c2_empty_tagorder_counterexample :
    emptyPolicy.tagOrder = [] ∧
    (str "FOO: this is a valid commit subject").any (fun ch => 127 < ch.toNat) = false ∧
    checkSubjectText (str "FOO: this is a valid commit subject") = none ∧
    CheckSubject emptyPolicy (str "FOO: this is a valid commit subject") =
      some .unprocessedTags ∧
    errKind .unprocessedTags = .tagScope := by
  decide

/-- C2 (amended): for a policy with empty `tagOrder` and an ASCII
subject, `CheckSubject` reduces to the unprocessed-tag re-check
followed by text validation: a subject that still begins with a
tag-shaped prefix fails with a TagScopeError, and every other subject
is judged by the text rules alone. -/
theorem c2_empty_tagorder_amended (c : CommitPolicyConfig) (s : List Char)
    (hc : c.tagOrder = []) (hA : s.any (fun ch => 127 < ch.toNat) = false) :
    CheckSubject c s =
      if (tagMatch s).isSome then some CheckError.unprocessedTags else checkSubjectText s := by
  simp [CheckSubject, hA, hc, tagLoop]

/-- C2 witness: the amended statement applied to the zero policy and a
tag-prefixed subject. -/
theorem c2_empty_tagorder_amended_witness :
    CheckSubject emptyPolicy (str "FOO: here are five words okay") =
      some CheckError.unprocessedTags := by
  have h := c2_empty_tagorder_amended emptyPolicy (str "FOO: here are five words okay")
    rfl (by decide)
  rw [h]
  decide

/-- C4 counterexample: a subject containing a byte outside 7-bit ASCII
is rejected, but the error wraps `ErrTagScope` (the tag-error sentinel),
not `ErrSubjectMessageFormat`: the claimed "FormatError distinct from
the tag-error kind" is false on the code. -/
theorem c4_nonascii_counterexample :
    CheckSubject defaultPolicy (str "héllo café commit subject") = some .nonAscii ∧
    errKind .nonAscii = .tagScope ∧
    errKind .nonAscii ≠ .subjectFormat := by
  decide

/-- C4 (amended): any subject with a code point above 127 (hence a byte
above 127 in its UTF-8 encoding) is rejected before any other
processing, with the non-ASCII error, whose kind is the TagScopeError
sentinel `ErrTagScope`. -/
theorem c4_nonascii_is_tagscope (c : CommitPolicyConfig) (s : List Char)
    (h : s.any (fun ch => 127 < ch.toNat) = true) :
    CheckSubject c s = some CheckError.nonAscii ∧ errKind .nonAscii = ErrKind.tagScope := by
  refine ⟨?_, rfl⟩
  simp [CheckSubject, h]

/-- C4 witness: the amended statement at a concrete non-ASCII subject. -/
theorem c4_nonascii_is_tagscope_witness :
    CheckSubject defaultPolicy (str "über alles") = some CheckError.nonAscii ∧
    errKind .nonAscii = ErrKind.tagScope :=
  c4_nonascii_is_tagscope defaultPolicy (str "über alles") (by decide)

/-- C7: whenever the tag-position loop completes without error and the
final remainder still matches the tag-prefix grammar, `CheckSubject`
returns the unprocessed-tags TagScopeError and text validation is never
reached (the result is `unprocessedTags`, not a text-validation
verdict). -/
theorem c7_unconsumed_tag_fatal (c : CommitPolicyConfig) (s r : List Char)
    (hA : s.any (fun ch => 127 < ch.toNat) = false)
    (hL : tagLoop c c.tagOrder s = .ok r)
    (hM : (tagMatch r).isSome = true) :
    CheckSubject c s = some CheckError.unprocessedTags ∧
      errKind .unprocessedTags = ErrKind.tagScope := by
  refine ⟨?_, rfl⟩
  simp [CheckSubject, hA, hL, hM]

/-- C7 witness: under the default policy the subject
`"BUG/MINOR: MAJOR: config: default implementation"` consumes
`BUG/MINOR: ` at the single tag position, leaves `MAJOR: ...` matching
the grammar, and fails this way. -/
theorem c7_unconsumed_tag_fatal_witness :
    CheckSubject defaultPolicy (str "BUG/MINOR: MAJOR: config: default implementation") =
      some CheckError.unprocessedTags ∧
    errKind .unprocessedTags = ErrKind.tagScope :=
  c7_unconsumed_tag_fatal defaultPolicy
    (str "BUG/MINOR: MAJOR: config: default implementation")
    (str "MAJOR: config: default implementation") (by decide) (by rfl) (by decide)

/-- Closed form of the `CheckPatchTypes` loop: the accumulator survives
unless some allowed tag accepts the `(tag, severity)` pair.  The early
`break` when a severity is present but the group has no scope leaves
the accumulator unchanged, which agrees with the scan because every
later element then contributes `false` as well. -/
theorem patchTypeLoop_eq (c : CommitPolicyConfig) (pt : patchTypeT) (tag severity : List Char)
    (vs : List (List Char)) (acc : Bool) :
    patchTypeLoop c pt tag severity vs acc =
      (acc || vs.any (fun v =>
        decide (tag = v) && (decide (severity = []) ||
          (!decide (pt.scope = []) &&
            (lookupScope c pt.scope).any (fun w => severity == w))))) := by
  induction vs generalizing acc with
  | nil => simp [patchTypeLoop]
  | cons v rest ih =>
    simp only [patchTypeLoop, List.any_cons]
    by_cases h1 : tag = v
    · rw [if_pos h1]
      by_cases h2 : severity = ([] : List Char)
      · rw [if_pos h2]
        simp [h1, h2]
      · rw [if_neg h2]
        by_cases h3 : pt.scope = ([] : List Char)
        · rw [if_pos h3]
          have hrest : (rest.any fun x =>
              decide (tag = x) && (decide (severity = []) ||
                (!decide (pt.scope = []) &&
                  (lookupScope c pt.scope).any fun w => severity == w))) = false := by
            rw [List.any_eq_false]
            intro x _
            simp [h2, h3]
          simp [h2, h3, hrest]
        · rw [if_neg h3, ih]
          simp [h1, h2, h3, Bool.or_assoc]
    · rw [if_neg h1, ih]
      simp [h1]

/-- C5: `CheckPatchTypes(tag, severity, name)` holds iff the tag is in
the named group's vocabulary and either there is no severity, or the
group names a scope and the severity belongs to it.  In particular a
matching tag with empty severity satisfies the group, and a present
severity with a scope-less group never does. -/
theorem c5_check_patch_types_iff (c : CommitPolicyConfig) (tag severity name : List Char) :
    CheckPatchTypes c tag severity name = true ↔
      (tag ∈ (lookupType c name).values ∧
        (severity = [] ∨
          ((lookupType c name).scope ≠ [] ∧
            severity ∈ lookupScope c (lookupType c name).scope))) := by
  rw [CheckPatchTypes, patchTypeLoop_eq]
  simp only [Bool.false_or, List.any_eq_true, Bool.and_eq_true, Bool.or_eq_true,
    decide_eq_true_eq, Bool.not_eq_true', decide_eq_false_iff_not, beq_iff_eq]
  constructor
  · rintro ⟨v, hv, rfl, h⟩
    refine ⟨hv, ?_⟩
    rcases h with h | ⟨hs, w, hw, rfl⟩
    · exact Or.inl h
    · exact Or.inr ⟨hs, hw⟩
  · rintro ⟨hv, h⟩
    refine ⟨tag, hv, rfl, ?_⟩
    rcases h with h | ⟨hs, hw⟩
    · exact Or.inl h
    · exact Or.inr ⟨hs, severity, hw, rfl⟩

/-- C5 witness: `BUG` with severity `MINOR` satisfies the default
policy's `HAProxy Standard Patch` group. -/
theorem c5_check_patch_types_iff_witness :
    CheckPatchTypes defaultPolicy (str "BUG") (str "MINOR") (str "HAProxy Standard Patch") = true :=
  (c5_check_patch_types_iff defaultPolicy (str "BUG") (str "MINOR")
    (str "HAProxy Standard Patch")).mpr (by decide)

/-- C6: `checkSubjectText` succeeds iff the subject equals the
single-space re-join of its whitespace-split tokens (character for
character, which for valid UTF-8 strings is byte for byte), its token
count lies in `[3, 15]` and its code-point count lies in `[15, 100]`;
otherwise it reports the first violated rule, checking whitespace shape
first, then word count, then length, and every failure is of the
FormatError kind (`ErrSubjectMessageFormat`). -/
theorem c6_subject_text_spec (s : List Char) :
    (checkSubjectText s = none ↔
      (s = joinSpace (fields s) ∧ 3 ≤ (fields s).length ∧ (fields s).length ≤ 15 ∧
        15 ≤ s.length ∧ s.length ≤ 100))
    ∧ (s ≠ joinSpace (fields s) → checkSubjectText s = some CheckError.malformedWhitespace)
    ∧ (s = joinSpace (fields s) → ((fields s).length < 3 ∨ 15 < (fields s).length) →
        checkSubjectText s = some CheckError.wordCountOutOfBounds)
    ∧ (s = joinSpace (fields s) → 3 ≤ (fields s).length → (fields s).length ≤ 15 →
        (s.length < 15 ∨ 100 < s.length) →
        checkSubjectText s = some CheckError.lengthOutOfBounds)
    ∧ (∀ e, checkSubjectText s = some e → errKind e = ErrKind.subjectFormat) := by
  have hdef : checkSubjectText s =
      if s ≠ joinSpace (fields s) then some .malformedWhitespace
      else if (fields s).length < 3 ∨ 15 < (fields s).length then some .wordCountOutOfBounds
      else if s.length < 15 ∨ 100 < s.length then some .lengthOutOfBounds
      else none := rfl
  rw [hdef]
  by_cases h1 : s = joinSpace (fields s)
  · rw [if_neg (fun hh => hh h1)]
    by_cases h2 : (fields s).length < 3 ∨ 15 < (fields s).length
    · rw [if_pos h2]
      refine ⟨iff_of_false (by simp) (fun ⟨_, a, b, _, _⟩ => by omega), ?_, ?_, ?_, ?_⟩
      · intro hne
        exact absurd h1 hne
      · intro _ _
        rfl
      · intro _ a b _
        omega
      · intro e he
        injection he with he
        rw [← he]
        rfl
    · rw [if_neg h2]
      by_cases h3 : s.length < 15 ∨ 100 < s.length
      · rw [if_pos h3]
        refine ⟨iff_of_false (by simp) (fun ⟨_, _, _, a, b⟩ => by omega), ?_, ?_, ?_, ?_⟩
        · intro hne
          exact absurd h1 hne
        · intro _ hb
          exact absurd hb h2
        · intro _ _ _ _
          rfl
        · intro e he
          injection he with he
          rw [← he]
          rfl
      · rw [if_neg h3]
        refine ⟨iff_of_true rfl ⟨h1, by omega, by omega, by omega, by omega⟩, ?_, ?_, ?_, ?_⟩
        · intro hne
          exact absurd h1 hne
        · intro _ hb
          exact absurd hb h2
        · intro _ _ _ hb
          exact absurd hb h3
        · intro e he
          exact Option.noConfusion he
  · rw [if_pos h1]
    refine ⟨iff_of_false (by simp) (fun ⟨hj, _⟩ => h1 hj), ?_, ?_, ?_, ?_⟩
    · intro _
      rfl
    · intro hj
      exact absurd hj h1
    · intro hj
      exact absurd hj h1
    · intro e he
      injection he with he
      rw [← he]
      rfl

/-- C6 witness: a well-shaped remainder passes the text rules. -/
theorem c6_subject_text_spec_witness :
    checkSubjectText (str "config: add default location of path") = none :=
  (c6_subject_text_spec (str "config: add default location of path")).1.mpr (by decide)

/-- Closed form of the `CheckSubjectList` loop: the error flag is the
disjunction over all (trimmed) subjects and the log collects every
failing (trimmed) subject, so every element is examined even after an
earlier failure. -/
theorem subjectListLoop_eq (c : CommitPolicyConfig) (ss : List (List Char)) (e : Bool)
    (acc : List (List Char)) :
    subjectListLoop c ss e acc =
      (e || (ss.map trimQuote).any (fun t => (CheckSubject c t).isSome),
       acc ++ (ss.map trimQuote).filter (fun t => (CheckSubject c t).isSome)) := by
  induction ss generalizing e acc with
  | nil => simp [subjectListLoop]
  | cons s rest ih =>
    simp only [subjectListLoop, List.map_cons, List.any_cons, List.filter_cons]
    cases h : CheckSubject c (trimQuote s) with
    | none => simp [h, ih]
    | some err => simp [h, ih]

/-- C8: when no subject carries surrounding quote characters,
`CheckSubjectList` succeeds iff `CheckSubject` succeeds on every
element; the only failure value is the single sentinel
`ErrSubjectList`; and the failure log contains exactly the failing
subjects — every element is checked even after an earlier failure. -/
theorem c8_subject_list_spec (c : CommitPolicyConfig) (ss : List (List Char))
    (h : ∀ s ∈ ss, trimQuote s = s) :
    (CheckSubjectList c ss = none ↔ ∀ s ∈ ss, CheckSubject c s = none)
    ∧ (∀ r, CheckSubjectList c ss = some r → r = ListError.subjectsContainErrors)
    ∧ subjectListLog c ss = ss.filter (fun s => (CheckSubject c s).isSome) := by
  have hmap : ss.map trimQuote = ss := by
    have haux : ∀ (l : List (List Char)), (∀ s ∈ l, trimQuote s = s) → l.map trimQuote = l := by
      intro l hl
      induction l with
      | nil => rfl
      | cons a t iht =>
        simp only [List.map_cons, hl a (by simp)]
        rw [iht (fun s hs => hl s (by simp [hs]))]
    exact haux ss h
  have key := subjectListLoop_eq c ss false []
  rw [hmap] at key
  refine ⟨⟨?_, ?_⟩, ?_, ?_⟩
  · intro hnone s hs
    by_contra hne
    have hsome : (CheckSubject c s).isSome = true := by
      cases hcs : CheckSubject c s with
      | none => exact absurd hcs hne
      | some _ => rfl
    have hany : ss.any (fun t => (CheckSubject c t).isSome) = true :=
      List.any_eq_true.mpr ⟨s, hs, hsome⟩
    rw [CheckSubjectList, key] at hnone
    simp [hany] at hnone
  · intro hall
    rw [CheckSubjectList, key]
    have hany : ss.any (fun t => (CheckSubject c t).isSome) = false := by
      rw [List.any_eq_false]
      intro s hs
      simp [hall s hs]
    simp [hany]
  · intro r _
    cases r
    rfl
  · rw [subjectListLog, key]
    simp

/-- C8 witness: a singleton list with a compliant, unquoted subject. -/
theorem c8_subject_list_spec_witness :
    CheckSubjectList defaultPolicy
      [str "BUG/MEDIUM: config: add default location of path to the configuration file"] =
      none := by
  have h := c8_subject_list_spec defaultPolicy
    [str "BUG/MEDIUM: config: add default location of path to the configuration file"]
    (by decide)
  exact h.1.mpr (by decide)

/-- A subject wrapped in single quotes, used to separate the two entry
points. -/
def quotedSubject : List Char :=
  Char.ofNat 39 :: (str "BUG/MINOR: MAJOR: config: default implementation" ++ [Char.ofNat 39])

/-- C10: `CheckSubjectList` judges each subject by its content after
stripping all leading and trailing single quotes, while `CheckSubject`
performs no stripping; on `quotedSubject` the direct entry point
accepts (the quote prevents any tag-grammar match, and the text rules
pass) while the list entry point strips the quotes, matches and
consumes `BUG/MINOR: `, finds the unconsumed `MAJOR: ` tag and fails. -/
theorem c10_subject_list_trims_quotes :
    (∀ (c : CommitPolicyConfig) (ss : List (List Char)),
      CheckSubjectList c ss = none ↔ ∀ s ∈ ss, CheckSubject c (trimQuote s) = none)
    ∧ CheckSubject defaultPolicy quotedSubject = none
    ∧ CheckSubjectList defaultPolicy [quotedSubject] = some ListError.subjectsContainErrors := by
  refine ⟨?_, by decide, by decide⟩
  intro c ss
  have key := subjectListLoop_eq c ss false []
  constructor
  · intro hnone s hs
    by_contra hne
    have hsome : (CheckSubject c (trimQuote s)).isSome = true := by
      cases hcs : CheckSubject c (trimQuote s) with
      | none => exact absurd hcs hne
      | some _ => rfl
    have hany : (ss.map trimQuote).any (fun t => (CheckSubject c t).isSome) = true :=
      List.any_eq_true.mpr ⟨trimQuote s, List.mem_map_of_mem _ hs, hsome⟩
    rw [CheckSubjectList, key] at hnone
    simp [hany] at hnone
  · intro hall
    rw [CheckSubjectList, key]
    have hany : (ss.map trimQuote).any (fun t => (CheckSubject c t).isSome) = false := by
      rw [List.any_eq_false]
      intro t ht
      obtain ⟨s, hs, rfl⟩ := List.mem_map.mp ht
      simp [hall s hs]
    simp [hany]

/-- C10 witness: the general trimmed-verdict equivalence applied to a
concrete compliant subject. -/
theorem c10_subject_list_trims_quotes_witness :
    CheckSubjectList defaultPolicy [str "MINOR: doc: describe the new keyword"] = none :=
  (c10_subject_list_trims_quotes.1 defaultPolicy
    [str "MINOR: doc: describe the new keyword"]).mpr (by decide)

/-- The verdict component of the log-threaded tag loop coincides with
the pure loop: the loop never reads the ambient state. -/
theorem tagLoopLog_fst (c : CommitPolicyConfig) (tas : List tagAlternativesT)
    (raw : List Char) (lg : List (List Char)) :
    (tagLoopLog c tas raw lg).1 = tagLoop c tas raw := by
  induction tas generalizing raw lg with
  | nil => rfl
  | cons ta rest ih =>
    cases h : tagMatch raw with
    | none =>
      simp only [tagLoopLog, tagLoop, h]
      exact ih raw lg
    | some q =>
      obtain ⟨m, tg, sv, rem⟩ := q
      simp only [tagLoopLog, tagLoop, h]
      cases hc : (ta.optional || ta.patchTypes.any fun p => CheckPatchTypes c tg sv p) with
      | true =>
        simp only [hc, if_true]
        exact ih _ lg
      | false => simp [hc]

/-- The log-threaded tag loop only appends to the ambient state. -/
theorem tagLoopLog_snd (c : CommitPolicyConfig) (tas : List tagAlternativesT)
    (raw : List Char) (lg : List (List Char)) :
    (tagLoopLog c tas raw lg).2 = lg ++ (tagLoopLog c tas raw []).2 := by
  induction tas generalizing raw lg with
  | nil => simp [tagLoopLog]
  | cons ta rest ih =>
    cases h : tagMatch raw with
    | none =>
      simp only [tagLoopLog, h]
      exact ih raw lg
    | some q =>
      obtain ⟨m, tg, sv, rem⟩ := q
      simp only [tagLoopLog, h]
      cases hc : (ta.optional || ta.patchTypes.any fun p => CheckPatchTypes c tg sv p) with
      | true =>
        simp only [hc, if_true]
        exact ih _ lg
      | false => simp [hc]

/-- The verdict of the log-threaded checker is the pure function. -/
theorem checkSubjectWithLog_fst (c : CommitPolicyConfig) (s : List Char)
    (lg : List (List Char)) :
    (CheckSubjectWithLog c s lg).1 = CheckSubject c s := by
  cases hA : s.any (fun ch => 127 < ch.toNat) with
  | true => simp [CheckSubjectWithLog, CheckSubject, hA]
  | false =>
    simp only [CheckSubjectWithLog, CheckSubject, hA]
    have hf := tagLoopLog_fst c c.tagOrder s lg
    rcases hE : tagLoopLog c c.tagOrder s lg with ⟨res, lga⟩
    rw [hE] at hf
    dsimp only at hf
    rw [← hf]
    cases res with
    | error e => rfl
    | ok rem => cases hm : (tagMatch rem).isSome <;> simp [hm]

/-- The log-threaded checker only appends to the ambient state, and
what it appends does not depend on the incoming state. -/
theorem checkSubjectWithLog_snd (c : CommitPolicyConfig) (s : List Char)
    (lg : List (List Char)) :
    (CheckSubjectWithLog c s lg).2 = lg ++ (CheckSubjectWithLog c s []).2 := by
  cases hA : s.any (fun ch => 127 < ch.toNat) with
  | true => simp [CheckSubjectWithLog, hA]
  | false =>
    simp only [CheckSubjectWithLog, hA]
    have h1 := tagLoopLog_fst c c.tagOrder s lg
    have h2 := tagLoopLog_fst c c.tagOrder s []
    have h3 := tagLoopLog_snd c c.tagOrder s lg
    rcases hE1 : tagLoopLog c c.tagOrder s lg with ⟨res1, lga⟩
    rcases hE2 : tagLoopLog c c.tagOrder s [] with ⟨res2, lgb⟩
    rw [hE1] at h1 h3
    rw [hE2] at h2 h3
    dsimp only at h1 h2 h3
    have hres : res1 = res2 := h1.trans h2.symm
    subst hres
    cases res1 with
    | error e => simpa using h3
    | ok rem => cases hm : (tagMatch rem).isSome <;> simpa [hm] using h3

/-- C9: `CheckSubject` is deterministic and pure.  With the ambient
state (the `log.Printf` stream, the only effect in the Go function)
made explicit, the verdict equals the pure `CheckSubject`, is identical
for any two ambient states — so evaluating the same `(policy, subject)`
pair twice yields identical verdicts — and the state is only appended
to, by messages that do not depend on the incoming state. -/
theorem c9_check_subject_deterministic (c : CommitPolicyConfig) (s : List Char)
    (lga lgb : List (List Char)) :
    (CheckSubjectWithLog c s lga).1 = CheckSubject c s
    ∧ (CheckSubjectWithLog c s lga).1 = (CheckSubjectWithLog c s lgb).1
    ∧ (CheckSubjectWithLog c s lga).2 = lga ++ (CheckSubjectWithLog c s []).2 := by
  refine ⟨checkSubjectWithLog_fst c s lga, ?_, checkSubjectWithLog_snd c s lga⟩
  rw [checkSubjectWithLog_fst c s lga, checkSubjectWithLog_fst c s lgb]
